import Mathlib

/-!
Verification development for the spm process supervisor.

The Go sources are embedded shallowly:

* `Spm.ProcA` — the process lifecycle code of the supervisor variant in
  `src/unnamed/part_009` (first document: `IsRunning`, `Start`, `Stop`,
  `updatePid`, `onStop`, `NewProcess`).  OS interactions (the signal-0
  probe, PID-file reads, `syscall.Kill` results, the spawn) are supplied
  by explicit environment records; the observable actions of a call are
  returned as an event trace.
* `Spm.ProcB` — the variant in `src/pkg/supervisor/process.go`
  (`NewProcess`, `Stop`, `Restart`, `Start`), which differs from `ProcA`
  in the stop path (direct `sysproc.Signal`, no grace timer, no process
  group) and in the `Pid` sentinel (`-1` instead of `0`).
* `Spm.Wire` — the length-prefix framing of `ClientRun`, `sendResponse`
  and `Handle` (`src/unnamed/part_009`, CBOR documents).
* `Spm.Registry` — `ProcList` (`src/pkg/supervisor/dispatch.go`),
  `Project`/`CreateProject` (`src/pkg/supervisor/project.go`) and
  `UpdateApp` (`src/unnamed/part_009`, project-management document).
* `Spm.AppName` — `GetAppName` (`src/pkg/supervisor/project.go`) with the
  RE2 semantics of its compiled pattern, SHA-256 and base64url.
* `Spm.Procfile` — `ProcfileConfig.IsValid` (`src/unnamed/part_010`).
-/

namespace Spm

/-- Process states; union of the constant sets of
`src/unnamed/part_009` (lines 501-510) and `src/pkg/codec/state.go`. -/
inductive PState where
  | standby
  | started
  | notFound
  | unknown
  | stopped
  | stopping
  | running
  | failed
deriving DecidableEq, Repr

/-- The stop signals of `sigTable` plus SIGKILL (used for escalation). -/
inductive Sig where
  | INT
  | TERM
  | QUIT
  | STOP
  | ABORT
  | KILL
deriving DecidableEq, Repr

/-- Embeds `sigTable` lookup (`src/unnamed/part_009` lines 26-32). -/
def sigTable : String → Option Sig
  | "INT" => some Sig.INT
  | "TERM" => some Sig.TERM
  | "QUIT" => some Sig.QUIT
  | "STOP" => some Sig.STOP
  | "ABORT" => some Sig.ABORT
  | _ => none

/-- Per-process configuration (`ProcessOption`): the fields that the
embedded lifecycle functions read. -/
structure ProcessOption where
  root : String
  pidRoot : String
  logRoot : String
  envMap : List (String × String)
  stopSignal : String
  numProcs : Nat
  cmd : List String
deriving DecidableEq, Repr

namespace ProcA

/-- Mutable state of a `Process` (supervisor variant,
`src/unnamed/part_009` lines 34-59).  `spawned` models `sysproc != nil`,
`hasCancel` models `cancel != nil`, `pidFile` models the contents of the
PID file at `PidPath` (`none` = absent), timestamps are `none` for the
Go zero `time.Time`. -/
structure Process where
  pid : Int
  name : String
  fullName : String
  state : PState
  startAt : Option Nat
  stopAt : Option Nat
  spawned : Bool
  hasCancel : Bool
  stopSignal : Sig
  cmd : List String
  pidFile : Option Int
deriving DecidableEq, Repr

/-- Result of `syscall.Kill` / `sysproc.Signal`: success, the
"process already gone" error (`os.ErrProcessDone` / ESRCH), or any other
error. -/
inductive KillRes where
  | ok
  | processDone
  | otherErr
deriving DecidableEq, Repr

/-- Environment for one `Stop` call: `alive` is the outcome of the
signal-0 liveness probe in `IsRunning` (false also covers a
`FindProcess` error), `readPid` the `utils.ReadPid` result, `modTime`
the `os.Stat` mtime of the PID file, `killRes` the result of delivering
the configured stop signal. -/
structure StopEnv where
  alive : Bool
  readPid : Option Int
  modTime : Option Nat
  killRes : KillRes
deriving Repr

/-- Environment for one `Start` call. -/
structure StartEnv where
  alive : Bool
  chdirOk : Bool
  outLogOk : Bool
  errLogOk : Bool
  pipesOk : Bool
  spawnOk : Bool
  newPid : Int
  now : Nat
deriving Repr

/-- Observable actions of a lifecycle call, in program order. -/
inductive Ev where
  | cancelCtx
  | waitReaders
  | graceWait
  | signalGroup (pid : Int) (sig : Sig)
  | killGroup (pid : Int)
  | signalProc (pid : Int) (sig : Sig)
  | killProc (pid : Int)
  | removePidFile
  | spawn (pid : Int)
  | writePidFile (pid : Int)
deriving DecidableEq, Repr

/-- Embeds `IsRunning` (`src/unnamed/part_009` lines 109-134): no spawn yet ⇒
`Standby`/false; a positive `Pid` is probed with signal 0 (`alive`
collapses the `FindProcess` and `Signal(0)` error cases) and a failed
probe ⇒ `Stopped`/false; otherwise ⇒ `Running`/true.  Note the code
skips the probe entirely when `Pid ≤ 0`. -/
def IsRunning (p : Process) (alive : Bool) : Process × Bool :=
  if !p.spawned then ({ p with state := PState.standby }, false)
  else if p.pid > 0 then
    if alive then ({ p with state := PState.running }, true)
    else ({ p with state := PState.stopped }, false)
  else ({ p with state := PState.running }, true)

/-- Embeds `updatePid` (`src/unnamed/part_009` lines 401-427): re-read the PID
file; on a changed positive pid record it and take `StartAt` from the
file's mtime (failing `os.Stat` returns false after the pid was already
updated). -/
def updatePid (p : Process) (readPid : Option Int) (modTime : Option Nat) :
    Process × Bool :=
  match readPid with
  | none => (p, false)
  | some pid =>
    if pid > 0 ∧ pid ≠ p.pid then
      match modTime with
      | none => ({ p with pid := pid }, false)
      | some t => ({ p with pid := pid, startAt := some t }, true)
    else (p, true)

/-- Embeds `onStop` (`src/unnamed/part_009` lines 429-440): clear `StartAt` and
remove the PID file. -/
def onStop (p : Process) : Process × List Ev :=
  ({ p with startAt := none, pidFile := none }, [Ev.removePidFile])

/-- The first two lines of `Stop` (`src/unnamed/part_009` lines
327-329): `if p.IsRunning() && !p.updatePid() { p.State = Unknown }`. -/
def stopRefresh (p : Process) (env : StopEnv) : Process :=
  let pr := IsRunning p env.alive
  if pr.2 then
    let u := updatePid pr.1 env.readPid env.modTime
    if !u.2 then { u.1 with state := PState.unknown } else u.1
  else pr.1

/-- Embeds `Stop` (`src/unnamed/part_009` lines 326-381).  In the `Running`
case: cancel the context and wait for the reader goroutines (when a
context exists), mark `Stopping`, wait on the 3-second grace select,
then — `ctx.Err()` of a `WithCancel` context is `nil` or `Canceled`, so
the else branch always runs — deliver the configured signal to the
process group `-Pid`; a delivery error other than `os.ErrProcessDone`
escalates to SIGKILL on the group.  Then `Stopped` and `onStop`.
Returns `State == Stopped`. -/
def Stop (p : Process) (env : StopEnv) : Process × Bool × List Ev :=
  let p1 := stopRefresh p env
  if p1.state = PState.running then
    let evs0 := if p1.hasCancel then [Ev.cancelCtx, Ev.waitReaders] else []
    let p2 := { p1 with state := PState.stopping }
    let evs1 := evs0 ++ [Ev.graceWait, Ev.signalGroup (-p2.pid) p2.stopSignal]
    let evs2 :=
      if env.killRes = KillRes.otherErr then evs1 ++ [Ev.killGroup (-p2.pid)]
      else evs1
    let o := onStop { p2 with state := PState.stopped }
    (o.1, decide (o.1.state = PState.stopped), evs2 ++ o.2)
  else if p1.state = PState.stopped then
    (p1, decide (p1.state = PState.stopped), [])
  else
    (p1, decide (p1.state = PState.stopped), [])

/-- Embeds `NewProcess` (`src/unnamed/part_009` lines 61-93): pid 0, state
`Standby`, default stop signal `sigTable["INT"]`, name = the part after
`::`. -/
def NewProcess (fullName : String) (opts : ProcessOption) : Process :=
  { pid := 0
    name := (fullName.splitOn "::").getD 1 ""
    fullName := fullName
    state := PState.standby
    startAt := none
    stopAt := none
    spawned := false
    hasCancel := false
    stopSignal := (sigTable opts.stopSignal).getD Sig.INT
    cmd := opts.cmd
    pidFile := none }

/-- Embeds `Start` (`src/unnamed/part_009` lines 283-324) with its helpers
`validateStart`, `prepareEnvironment`, `buildCommand`, `setupStreams`,
`launchProcess` inlined in program order.  When `validateStart` errors
(state `Stopping`, or `IsRunning` true) `Start` re-checks `IsRunning`
and returns true for a running process without touching anything
else. -/
def Start (p : Process) (env : StartEnv) : Process × Bool × List Ev :=
  if p.state = PState.stopping then
    let pr := IsRunning p env.alive
    (pr.1, pr.2, [])
  else
    let pr := IsRunning p env.alive
    if pr.2 then
      let pr2 := IsRunning pr.1 env.alive
      (pr2.1, pr2.2, [])
    else
      let p1 := pr.1
      if !env.chdirOk then (p1, false, [])
      else if !(env.outLogOk && env.errLogOk) then (p1, false, [])
      else if p1.cmd.length = 0 then (p1, false, [])
      else
        let p2 := { p1 with hasCancel := true }
        if !env.pipesOk then (p2, false, [])
        else if !env.spawnOk then ({ p2 with state := PState.failed }, false, [])
        else
          let p3 := { p2 with
            pid := env.newPid
            spawned := true
            startAt := some env.now
            stopAt := none
            state := PState.running
            pidFile := some env.newPid }
          (p3, true, [Ev.spawn env.newPid, Ev.writePidFile env.newPid])

end ProcA

namespace ProcB

open ProcA

/-- Embeds `NewProcess` (`src/pkg/supervisor/process.go` lines 66-92): pid is
initialised to **-1**, the default stop signal is `sigTable["TERM"]`. -/
def NewProcess (fullName : String) (opts : ProcessOption) : Process :=
  { pid := -1
    name := (fullName.splitOn "::").getD 1 ""
    fullName := fullName
    state := PState.standby
    startAt := none
    stopAt := none
    spawned := false
    hasCancel := false
    stopSignal := (sigTable opts.stopSignal).getD Sig.TERM
    cmd := opts.cmd
    pidFile := none }

/-- Embeds `Stop` (`src/pkg/supervisor/process.go` lines 267-305).  Same
refresh preamble as the supervisor variant, but: a missing cancel
function returns false at once; the signal goes to `p.sysproc` directly
(no process group, no grace timer); the deferred `onStop` runs on every
path after the return value is computed. -/
def Stop (p : Process) (env : StopEnv) : Process × Bool × List Ev :=
  let p1 := stopRefresh p env
  if p1.state = PState.running then
    if !p1.hasCancel then
      let o := onStop p1
      (o.1, false, o.2)
    else
      let p2 := { p1 with state := PState.stopping }
      let evs := [Ev.cancelCtx, Ev.waitReaders, Ev.signalProc p2.pid p2.stopSignal]
      let p3 := { p2 with state := PState.stopped }
      let evs2 :=
        if env.killRes = KillRes.otherErr then evs ++ [Ev.killProc p2.pid]
        else evs
      let ret := decide (p3.state = PState.stopped)
      let o := onStop p3
      (o.1, ret, evs2 ++ o.2)
  else
    let ret := decide (p1.state = PState.stopped)
    let o := onStop p1
    (o.1, ret, o.2)

/-- Embeds `Start` (`src/pkg/supervisor/process.go` lines 170-265): `Stopping`
returns false outright; an `IsRunning` process returns true without
re-spawning; otherwise open logs, chdir, build the command, spawn, and
record pid/`StartAt`/`Running`/PID file. -/
def Start (p : Process) (env : StartEnv) : Process × Bool × List Ev :=
  if p.state = PState.stopping then (p, false, [])
  else
    let pr := IsRunning p env.alive
    if pr.2 then (pr.1, true, [])
    else
      let p1 := pr.1
      if !(env.outLogOk && env.errLogOk) then (p1, false, [])
      else if !env.chdirOk then (p1, false, [])
      else
        let p2 := { p1 with hasCancel := true }
        if !env.pipesOk then (p2, false, [])
        else if !env.spawnOk then ({ p2 with state := PState.failed }, false, [])
        else
          let p3 := { p2 with
            pid := env.newPid
            spawned := true
            startAt := some env.now
            state := PState.running
            pidFile := some env.newPid }
          (p3, true, [Ev.spawn env.newPid, Ev.writePidFile env.newPid])

/-- The body of `Restart` (`src/pkg/supervisor/process.go` lines
307-323) before the final `p.Start()`: `updatePid` (result discarded),
`Stop` if running else `onStop`, then `p.Pid = -1`. -/
def RestartMid (p : Process) (env : StopEnv) : Process :=
  let u := updatePid p env.readPid env.modTime
  let pr := IsRunning u.1 env.alive
  let p2 := if pr.2 then (Stop pr.1 env).1 else (onStop pr.1).1
  { p2 with pid := -1 }

/-- Embeds `Restart` (`src/pkg/supervisor/process.go` lines 307-323). -/
def Restart (p : Process) (env : StopEnv) (senv : StartEnv) :
    Process × Bool × List Ev :=
  Start (RestartMid p env) senv

end ProcB

namespace Wire

/-- Embeds `strconv.IntSize`: the size in **bits** of a Go `int` — 64 on the
64-bit platforms the daemon targets.  Both peers use it as a **byte**
count for the length buffer. -/
def intSize : Nat := 64

/-- Embeds `binary.BigEndian.PutUint64`: the 8 big-endian bytes of `n mod 2^64`
(written into the front of the size buffer). -/
def putUint64BE (n : Nat) : List Nat :=
  [n / 2 ^ 56 % 256, n / 2 ^ 48 % 256, n / 2 ^ 40 % 256, n / 2 ^ 32 % 256,
   n / 2 ^ 24 % 256, n / 2 ^ 16 % 256, n / 2 ^ 8 % 256, n % 256]

/-- Embeds `size := make([]byte, strconv.IntSize)` followed by
`binary.BigEndian.PutUint64(size, uint64(len(data)))`
(`src/unnamed/part_009` lines 1117-1118 and 1701-1702): a buffer of
`strconv.IntSize` zero bytes whose first 8 bytes carry the length. -/
def sizeBuf (n : Nat) : List Nat :=
  putUint64BE n ++ List.replicate (intSize - 8) 0

/-- One framed message as both `ClientRun` (lines 1120-1132) and
`sendResponse` (lines 1704-1712) put it on the stream:
`Send(size)` then `Send(data)`. -/
def writeFrame (body : List Nat) : List Nat :=
  sizeBuf body.length ++ body

/-- Embeds `binary.BigEndian.Uint64`: big-endian value of the first 8 bytes. -/
def beUint64 (bs : List Nat) : Nat :=
  (bs.take 8).foldl (fun acc b => acc * 256 + b) 0

/-- Reading one frame as both `Handle` (lines 1725-1733) and `ClientRun`
(lines 1134-1155) do: `Recv(strconv.IntSize)` bytes, decode the length
from their first 8 bytes, then `Recv(msgLen)`. -/
def readFrame (stream : List Nat) : List Nat :=
  let lenBuf := stream.take intSize
  let rest := stream.drop intSize
  rest.take (beUint64 lenBuf)

/-- The framing the specification describes: an **8-byte** big-endian
length directly followed by the body.  Stated from the spec's words for
comparison with `writeFrame`. -/
def specFrame (body : List Nat) : List Nat :=
  putUint64BE body.length ++ body

end Wire

namespace Registry

/-- Embeds `ProcList` (`src/pkg/supervisor/dispatch.go` lines 184-198): an
append-only slice of assigned indices, a name→index map (`place`) and an
index→name map (`table`); the Go maps are modelled as association
lists. -/
structure ProcList where
  index : List Int
  place : List (String × Int)
  table : List (Int × String)
deriving DecidableEq, Repr

/-- Embeds `NewProcList` (`src/pkg/supervisor/dispatch.go` lines 192-198). -/
def ProcList.empty : ProcList :=
  { index := [], place := [], table := [] }

/-- Embeds `ProcList.Index` (`src/pkg/supervisor/dispatch.go` lines 200-209):
the stored index, or -1 when the name is absent. -/
def ProcList.Index (pl : ProcList) (name : String) : Int :=
  (pl.place.lookup name).getD (-1)

/-- Embeds `ProcList.Get` (`src/pkg/supervisor/dispatch.go` lines 211-218). -/
def ProcList.Get (pl : ProcList) (i : Int) : Option String :=
  pl.table.lookup i

/-- Embeds `ProcList.Add` (`src/pkg/supervisor/dispatch.go` lines 220-238): a
present key is a no-op returning false; otherwise the new index is one
more than the last element of `index` (-1 when empty), appended to
`index` and recorded in both maps. -/
def ProcList.Add (pl : ProcList) (name : String) : ProcList × Bool :=
  match pl.place.lookup name with
  | some _ => (pl, false)
  | none =>
    let last := pl.index.getLastD (-1)
    ({ index := pl.index ++ [last + 1]
       place := (name, last + 1) :: pl.place
       table := (last + 1, name) :: pl.table }, true)

/-- Embeds `ProcList.Del` (`src/pkg/supervisor/dispatch.go` lines 240-253):
remove the name from both maps; `index` is left untouched. -/
def ProcList.Del (pl : ProcList) (name : String) : ProcList × Bool :=
  match pl.place.lookup name with
  | none => (pl, false)
  | some i =>
    ({ index := pl.index
       place := pl.place.filter fun kv => kv.1 ≠ name
       table := pl.table.filter fun kv => kv.1 ≠ i }, true)

/-- One run-time operation on the process list. -/
inductive PLOp where
  | add (name : String)
  | del (name : String)
deriving DecidableEq, Repr

/-- Apply one operation (the Bool result is discarded). -/
def applyOp (pl : ProcList) : PLOp → ProcList
  | PLOp.add n => (pl.Add n).1
  | PLOp.del n => (pl.Del n).1

/-- The state after a run of operations from the empty list. -/
def runOps (ops : List PLOp) : ProcList :=
  ops.foldl applyOp ProcList.empty

/-- The indices handed out by the successful `Add`s of a run, in
order.  Mirrors the assignment `last+1` in `ProcList.Add`. -/
def addTrace : ProcList → List PLOp → List Int
  | _, [] => []
  | pl, PLOp.add n :: rest =>
    match pl.place.lookup n with
    | some _ => addTrace pl rest
    | none => (pl.index.getLastD (-1) + 1) :: addTrace (pl.Add n).1 rest
  | pl, PLOp.del n :: rest => addTrace (pl.Del n).1 rest

/-- A registered process as the registry sees it (`FullName` plus its
reported state; the lifecycle details live in `ProcA.Process`). -/
structure RegProc where
  fullName : String
  state : PState
deriving DecidableEq, Repr

/-- Embeds `ProcfileOption`: the fields `UpdateApp` and `CreateProject` read;
`processes` is the declared name → option mapping. -/
structure ProcfileOption where
  appName : String
  workDir : String
  procfile : String
  env : List String
  processes : List (String × ProcessOption)
deriving DecidableEq, Repr

/-- Embeds `Project` (`src/pkg/supervisor/project.go` lines 12-20) together
with the project-local process table that the `UpdateApp` document of
`src/unnamed/part_009` manipulates (`oldProj.procTable`). -/
structure Project where
  name : String
  workDir : String
  procfile : String
  running : List (String × Bool)
  procTable : List (String × RegProc)
deriving DecidableEq, Repr

/-- Embeds `Project.IsExist` (`src/pkg/supervisor/project.go` lines 22-29):
membership in the running map. -/
def Project.IsExist (p : Project) (name : String) : Bool :=
  (p.running.lookup name).isSome

/-- Embeds `Project.GetState` (`src/pkg/supervisor/project.go` lines 31-40):
the stored flag, false when absent. -/
def Project.GetState (p : Project) (name : String) : Bool :=
  (p.running.lookup name).getD false

/-- Embeds `Project.GetProcNames` (`src/pkg/supervisor/project.go` lines
49-60): a fresh copy of the running map's keys. -/
def Project.GetProcNames (p : Project) : List String :=
  p.running.map Prod.fst

/-- Embeds `CreateProject` (`src/pkg/supervisor/project.go` lines 62-74): every
declared process starts with flag false; the local process table starts
empty (it is filled by `Register`). -/
def CreateProject (opt : ProcfileOption) : Project :=
  { name := opt.appName
    workDir := opt.workDir
    procfile := opt.procfile
    running := opt.processes.map fun kv => (kv.1, false)
    procTable := [] }

/-- Go map assignment `p.running[name] = b`: replace an existing entry,
else append. -/
def Project.setFlag (p : Project) (name : String) (b : Bool) : Project :=
  if (p.running.lookup name).isSome then
    { p with running := p.running.map fun kv =>
        if kv.1 = name then (kv.1, b) else kv }
  else
    { p with running := p.running ++ [(name, b)] }

/-- Modelled from the spec: `Project.Unset(name)` removes the
intended-running flag entry only (§4.3; the repository file defining
`Unset` is not under `src/`, only its caller `UpdateApp` is). -/
def Project.Unset (p : Project) (name : String) : Project :=
  { p with running := p.running.filter fun kv => kv.1 ≠ name }

/-- Modelled from the spec: `Project.Register(name, opt)` creates a
`Process` if absent, inserts it into the project's local `ProcTable`,
and sets the intended-running flag to false (§4.3; the defining file is
not under `src/`).  A fresh process starts in `Standby` with full name
`<app>::<name>` (§3). -/
def Project.Register (p : Project) (name : String) (_opt : ProcessOption) :
    Project × RegProc :=
  match p.procTable.lookup name with
  | some proc => (p.setFlag name false, proc)
  | none =>
    let proc : RegProc :=
      { fullName := p.name ++ "::" ++ name, state := PState.standby }
    ({ (p.setFlag name false) with
        procTable := p.procTable ++ [(name, proc)] }, proc)

/-- Embeds `Project.procTable.Del` (ordered-map delete by key). -/
def Project.procTableDel (p : Project) (name : String) : Project :=
  { p with procTable := p.procTable.filter fun kv => kv.1 ≠ name }

/-- The supervisor's registry state: the project table and the global
`ProcList` (the fields of `Supervisor` that `UpdateApp` touches). -/
structure SupervisorSt where
  projectTable : List (String × Project)
  procList : ProcList
deriving Repr

/-- Go map assignment `projectTable[k] = v` for a key already present:
the stored project is the mutated object. -/
def tableUpdate (t : List (String × Project)) (k : String) (v : Project) :
    List (String × Project) :=
  t.map fun kv => if kv.1 = k then (k, v) else kv

/-- Embeds `strings.Split(name, "::")` on the character list (leftmost,
non-overlapping separator occurrences). -/
def splitOnColons : List Char → List Char → List (List Char)
  | [], cur => [cur]
  | ':' :: ':' :: rest, cur => cur :: splitOnColons rest []
  | c :: rest, cur => splitOnColons rest (cur ++ [c])

/-- Modelled from the spec: `GetProcByName` resolves a fully-qualified
`app::proc` name to its process via the project table (§3 "Full name";
the defining file is not under `src/`, only callers are). -/
def SupervisorSt.GetProcByName (sv : SupervisorSt) (fullName : String) :
    Option RegProc :=
  match (splitOnColons fullName.data []).map String.mk with
  | appName :: procName :: _ =>
    match sv.projectTable.lookup appName with
    | some proj => proj.procTable.lookup procName
    | none => none
  | _ => none

/-- The removal loop of `UpdateApp(force=false)` (`src/unnamed/part_009`
lines 1029-1038): for each pre-existing name neither declared in the new
option nor currently flagged running, `Unset` it, delete it from the
project's procTable and delete its full name from the global
`ProcList`. -/
def removalStep (newProj : Project) (acc : Project × ProcList)
    (name : String) : Project × ProcList :=
  if !(newProj.IsExist name) && !(acc.1.GetState name) then
    let fullName := acc.1.name ++ "::" ++ name
    let p' := (acc.1.Unset name).procTableDel name
    (p', (acc.2.Del fullName).1)
  else acc

/-- One step of the registration loop of `UpdateApp(force=false)`
(`src/unnamed/part_009` lines 1040-1052): skip a declared process that
already exists with a state other than `NotFound`; otherwise `Register`
it, `Add` its full name to the `ProcList` and collect it. -/
def registerStep (sv : SupervisorSt) (appName : String)
    (newProjName : String) (acc : Project × ProcList × List RegProc)
    (kv : String × ProcessOption) : Project × ProcList × List RegProc :=
  let fullName := newProjName ++ "::" ++ kv.1
  let svCur : SupervisorSt :=
    { projectTable := tableUpdate sv.projectTable appName acc.1
      procList := acc.2.1 }
  match svCur.GetProcByName fullName with
  | some e =>
    if e.state ≠ PState.notFound then acc
    else
      let r := acc.1.Register kv.1 kv.2
      (r.1, (acc.2.1.Add fullName).1, acc.2.2 ++ [r.2])
  | none =>
    let r := acc.1.Register kv.1 kv.2
    (r.1, (acc.2.1.Add fullName).1, acc.2.2 ++ [r.2])

/-- The whole removal loop of `UpdateApp(force=false)` as a fold over
the pre-existing names. -/
def remFold (procList : ProcList) (newProj oldP : Project) :
    Project × ProcList :=
  (oldP.GetProcNames).foldl (removalStep newProj) (oldP, procList)

/-- The whole registration loop of `UpdateApp(force=false)` as a fold
over the declared processes. -/
def regFold (sv : SupervisorSt) (appName newProjName : String)
    (processes : List (String × ProcessOption))
    (start : Project × ProcList) : Project × ProcList × List RegProc :=
  processes.foldl (registerStep sv appName newProjName)
    (start.1, start.2, [])

/-- Embeds `UpdateApp` (`src/unnamed/part_009` lines 1000-1059).  Returns the
updated supervisor state, the project (`nil` modelled as `none`) and the
list of newly registered processes. -/
def UpdateApp (sv : SupervisorSt) (force : Bool)
    (procOpts : ProcfileOption) :
    SupervisorSt × Option Project × List RegProc :=
  let newProj := CreateProject procOpts
  let oldProj := sv.projectTable.lookup procOpts.appName
  if force then
    match oldProj with
    | none =>
      if procOpts.processes.length = 0 ∨ procOpts.workDir = "" then
        (sv, none, [])
      else
        let r := procOpts.processes.foldl
          (fun (acc : Project × ProcList) kv =>
            let r := acc.1.Register kv.1 kv.2
            (r.1, (acc.2.Add r.2.fullName).1))
          (newProj, sv.procList)
        ({ projectTable := sv.projectTable ++ [(procOpts.appName, r.1)]
           procList := r.2 }, some r.1, [])
    | some _ => (sv, oldProj, [])
  else
    match oldProj with
    | none => (sv, none, [])
    | some oldP =>
      let r2 := regFold sv procOpts.appName newProj.name procOpts.processes
        (remFold sv.procList newProj oldP)
      ({ projectTable := tableUpdate sv.projectTable procOpts.appName r2.1
         procList := r2.2.1 }, some r2.1, r2.2.2)

/-- Well-formedness of a reachable `ProcList`: the `index` slice is
exactly `0, 1, …, len-1`, both maps stay bounded by it, and they are
mutually inverse. -/
structure PLWf (pl : ProcList) : Prop where
  lastIdx : pl.index.getLastD (-1) = (pl.index.length : Int) - 1
  placeBound : ∀ n i, pl.place.lookup n = some i →
    0 ≤ i ∧ i < (pl.index.length : Int)
  tableBound : ∀ i n, pl.table.lookup i = some n →
    0 ≤ i ∧ i < (pl.index.length : Int)
  inv₁ : ∀ i n, pl.table.lookup i = some n → pl.place.lookup n = some i
  inv₂ : ∀ n i, pl.place.lookup n = some i → pl.table.lookup i = some n

end Registry

namespace AppName

/-- The character class that RE2 actually parses out of the pattern
string `"[ &$` + backtick + `!*@\"()[]\\\r\n\t]"` in `GetAppName`
(`src/pkg/supervisor/project.go` line 80).  The unescaped `]` after `[`
closes the class early, so the class is exactly
space, `&`, `$`, backtick, `!`, `*`, `@`, `"`, `(`, `)`, `[` —
and the leftover `\\\r\n\t]` becomes four literal characters that must
follow the class character for the pattern to match. -/
def cleanChars : List Char :=
  [' ', '&', '$', Char.ofNat 96, '!', '*', '@', '"', '(', ')', '[']

/-- Embeds `re.ReplaceAllString(name, "_")` for the compiled pattern: replace
each leftmost, non-overlapping occurrence of
`<classChar> '\r' '\n' '\t' ']'` (five characters) by one underscore. -/
def replaceAllU : List Char → List Char
  | c :: '\r' :: '\n' :: '\t' :: ']' :: rest =>
    if cleanChars.contains c then '_' :: replaceAllU rest
    else c :: replaceAllU ('\r' :: '\n' :: '\t' :: ']' :: rest)
  | c :: rest => c :: replaceAllU rest
  | [] => []

/-- The basename cleaning of `GetAppName` (lines 90-93): regex
replacement, then truncation to 42 bytes (characters, for the ASCII
names considered here). -/
def cleanAppBase (base : String) : String :=
  let cleaned := String.mk (replaceAllU base.data)
  if cleaned.length > 42 then String.mk (cleaned.data.take 42) else cleaned

/-- The cleaning the claim describes: every occurrence of any single
character among backtick, space, `&`, `$`, `!`, `*`, `@`, `"`, `(`,
`)`, `[`, `]`, CR, LF and TAB is replaced by `_`, and the basename is
truncated to 42 characters.  Stated from the spec's words for
comparison with `cleanAppBase`. -/
def claimChars : List Char :=
  [Char.ofNat 96, ' ', '&', '$', '!', '*', '@', '"', '(', ')', '[', ']',
   '\r', '\n', '\t']

/-- Spec-side cleaning function (see `claimChars`). -/
def specCleanBase (base : String) : String :=
  let cleaned := String.mk (base.data.map fun c =>
    if claimChars.contains c then '_' else c)
  if cleaned.length > 42 then String.mk (cleaned.data.take 42) else cleaned

/-- Truncation to 32 bits. -/
def w32 (n : Nat) : Nat := n % 4294967296

/-- Rotate right in 32-bit arithmetic. -/
def rotr (x n : Nat) : Nat := w32 ((x >>> n) ||| (x <<< (32 - n)))

/-- SHA-256 small sigma 0. -/
def ssig0 (x : Nat) : Nat := rotr x 7 ^^^ rotr x 18 ^^^ (x >>> 3)

/-- SHA-256 small sigma 1. -/
def ssig1 (x : Nat) : Nat := rotr x 17 ^^^ rotr x 19 ^^^ (x >>> 10)

/-- SHA-256 big sigma 0. -/
def bsig0 (x : Nat) : Nat := rotr x 2 ^^^ rotr x 13 ^^^ rotr x 22

/-- SHA-256 big sigma 1. -/
def bsig1 (x : Nat) : Nat := rotr x 6 ^^^ rotr x 11 ^^^ rotr x 25

/-- SHA-256 choice function. -/
def chF (e f g : Nat) : Nat := (e &&& f) ^^^ ((e ^^^ 4294967295) &&& g)

/-- SHA-256 majority function. -/
def majF (a b c : Nat) : Nat := (a &&& b) ^^^ (a &&& c) ^^^ (b &&& c)

/-- The SHA-256 round constants (decimal). -/
def K256 : List Nat :=
  [1116352408, 1899447441, 3049323471, 3921009573, 961987163,
   1508970993, 2453635748, 2870763221, 3624381080, 310598401,
   607225278, 1426881987, 1925078388, 2162078206, 2614888103,
   3248222580, 3835390401, 4022224774, 264347078, 604807628,
   770255983, 1249150122, 1555081692, 1996064986, 2554220882,
   2821834349, 2952996808, 3210313671, 3336571891, 3584528711,
   113926993, 338241895, 666307205, 773529912, 1294757372,
   1396182291, 1695183700, 1986661051, 2177026350, 2456956037,
   2730485921, 2820302411, 3259730800, 3345764771, 3516065817,
   3600352804, 4094571909, 275423344, 430227734, 506948616,
   659060556, 883997877, 958139571, 1322822218, 1537002063,
   1747873779, 1955562222, 2024104815, 2227730452, 2361852424,
   2428436474, 2756734187, 3204031479, 3329325298]

/-- The SHA-256 initial hash value (decimal). -/
def H256 : List Nat :=
  [1779033703, 3144134277, 1013904242, 2773480762, 1359893119,
   2600822924, 528734635, 1541459225]

/-- Group a byte list into big-endian 32-bit words. -/
def toWords : List Nat → List Nat
  | a :: b :: c :: d :: rest => (((a * 256 + b) * 256 + c) * 256 + d) :: toWords rest
  | _ => []

/-- Extend 16 message words to the 64-entry message schedule. -/
def schedule (w16 : List Nat) : List Nat :=
  (List.range 48).foldl
    (fun w _ =>
      let i := w.length
      w ++ [w32 (ssig1 (w.getD (i - 2) 0) + w.getD (i - 7) 0 +
        ssig0 (w.getD (i - 15) 0) + w.getD (i - 16) 0)])
    w16

/-- One SHA-256 compression round on the state `[a,b,c,d,e,f,g,h]`. -/
def round256 (st : List Nat) (kw : Nat × Nat) : List Nat :=
  match st with
  | [a, b, c, d, e, f, g, h] =>
    let t1 := w32 (h + bsig1 e + chF e f g + kw.1 + kw.2)
    let t2 := w32 (bsig0 a + majF a b c)
    [w32 (t1 + t2), a, b, c, w32 (d + t1), e, f, g]
  | _ => st

/-- Compress one 64-byte block into the running hash. -/
def compressBlock (h : List Nat) (block : List Nat) : List Nat :=
  let ws := schedule (toWords block)
  let fin := (K256.zip ws).foldl round256 h
  List.zipWith (fun x y => w32 (x + y)) h fin

/-- Compress the 64-byte blocks of a padded message one after the
other; the first argument counts the remaining blocks. -/
def foldBlocks : Nat → List Nat → List Nat → List Nat
  | 0, h, _ => h
  | n + 1, h, l => foldBlocks n (compressBlock h (l.take 64)) (l.drop 64)

/-- Embeds `crypto/sha256.Sum256` on a byte list: pad, compress the blocks,
serialise the final state big-endian. -/
def sha256Bytes (msg : List Nat) : List Nat :=
  let l := msg.length
  let padded := msg ++ [0x80] ++ List.replicate ((119 - l % 64) % 64) 0 ++
    Wire.putUint64BE (8 * l)
  let h := foldBlocks (padded.length / 64) H256 padded
  h.foldr
    (fun w acc =>
      [w / 2 ^ 24 % 256, w / 2 ^ 16 % 256, w / 2 ^ 8 % 256, w % 256] ++ acc)
    []

/-- The base64url alphabet (`base64.URLEncoding`). -/
def b64Alphabet : List Char :=
  "ABCDEFGHIJKLMNOPQRSTUVWXYZabcdefghijklmnopqrstuvwxyz0123456789-_".data

/-- Character for a 6-bit value. -/
def b64c (n : Nat) : Char := b64Alphabet.getD n 'A'

/-- Embeds `base64.URLEncoding.EncodeToString` (with `=` padding). -/
def base64urlEncode : List Nat → List Char
  | [] => []
  | [a] => [b64c (a / 4), b64c (a % 4 * 16), '=', '=']
  | [a, b] => [b64c (a / 4), b64c (a % 4 * 16 + b / 16), b64c (b % 16 * 4), '=']
  | a :: b :: c :: rest =>
    b64c (a / 4) :: b64c (a % 4 * 16 + b / 16) :: b64c (b % 16 * 4 + c / 64) ::
      b64c (c % 64) :: base64urlEncode rest

/-- Bytes of a path string (the paths in this development are ASCII, so
UTF-8 bytes coincide with the code points). -/
def strBytes (s : String) : List Nat := s.data.map Char.toNat

/-- Scan for the last nonempty `/`-separated component. -/
def baseNameAux : List Char → List Char → List Char → List Char
  | [], cur, lastNE => if cur ≠ [] then cur else lastNE
  | '/' :: rest, cur, lastNE =>
    baseNameAux rest [] (if cur ≠ [] then cur else lastNE)
  | c :: rest, cur, lastNE => baseNameAux rest (cur ++ [c]) lastNE

/-- Embeds `os.Stat(cwd).Name()`: the final nonempty component of the path
(the path is assumed to exist; `Stat` errors are out of scope of the
claims). -/
def baseName (p : String) : String :=
  let r := baseNameAux p.data [] []
  if r = [] then "/" else String.mk r

/-- The hash suffix of `GetAppName` (lines 95-102): base64url of the
first 6 bytes of `sha256(cwd)`, truncated to 8 characters (a no-op,
since 6 bytes encode to exactly 8 characters). -/
def hashEnc (cwd : String) : String :=
  let h := sha256Bytes (strBytes cwd)
  let encoded := String.mk (base64urlEncode (h.take 6))
  if encoded.length > 8 then String.mk (encoded.data.take 8) else encoded

/-- Embeds `GetAppName` (`src/pkg/supervisor/project.go` lines 79-107):
`<cleanedBasename>-<hash8>`. -/
def GetAppName (cwd : String) : String :=
  cleanAppBase (baseName cwd) ++ "-" ++ hashEnc cwd

end AppName

namespace Procfile

/-- Letter class `[A-Za-z]` of the Procfile name pattern. -/
def isAlphaC (c : Char) : Bool :=
  ('A' ≤ c && c ≤ 'Z') || ('a' ≤ c && c ≤ 'z')

/-- Class `[A-Za-z0-9-_]` of the Procfile name pattern. -/
def isWordC (c : Char) : Bool :=
  isAlphaC c || ('0' ≤ c && c ≤ '9') || c = '-' || c = '_'

/-- Full-match semantics of the anchored pattern
`^[A-Za-z]+[A-Za-z0-9-_]+$` (`src/unnamed/part_010` line 13): the string
splits into a nonempty run of letters followed by a nonempty run of
word-class characters. -/
def nameReMatch (s : List Char) : Bool :=
  (List.range s.length).any fun k =>
    decide (0 < k) && (s.take k).all isAlphaC && (s.drop k).all isWordC

/-- Embeds `ProcfileConfig.IsValid` (`src/unnamed/part_010` lines 12-20): every
key of the mapping must match the name pattern.  The Go map is modelled
as its entry list. -/
def IsValid (cfg : List (String × String)) : Bool :=
  cfg.all fun kv => nameReMatch kv.1.data

end Procfile

namespace Fixtures

/-- A plain process option used by the concrete witnesses. -/
def optTerm : ProcessOption :=
  { root := "/tmp/app", pidRoot := "", logRoot := "", envMap := [],
    stopSignal := "TERM", numProcs := 1, cmd := ["sleep", "30"] }

/-- A process that is genuinely running (spawned, pid 42, live). -/
def runProc : ProcA.Process :=
  { pid := 42, name := "web", fullName := "app::web",
    state := PState.running, startAt := some 5, stopAt := none,
    spawned := true, hasCancel := true, stopSignal := Sig.TERM,
    cmd := ["sleep", "30"], pidFile := some 42 }

/-- A stopped process whose OS child is gone. -/
def stoppedProc : ProcA.Process :=
  { runProc with
    state := PState.stopped
    startAt := none
    stopAt := some 7
    pidFile := none }

/-- A spawned process with `Pid = 0` (the state `Restart` leaves behind):
exercises the probe-free branch of `IsRunning`. -/
def cexProc : ProcA.Process :=
  { pid := 0, name := "web", fullName := "app::web",
    state := PState.stopped, startAt := none, stopAt := none,
    spawned := true, hasCancel := true, stopSignal := Sig.INT,
    cmd := ["sleep", "30"], pidFile := none }

/-- Stop environment: pid file agrees, child alive, signal delivered. -/
def envLive : ProcA.StopEnv :=
  { alive := true, readPid := some 42, modTime := none,
    killRes := ProcA.KillRes.ok }

/-- Stop environment: child gone (probe fails, no pid file). -/
def envDead : ProcA.StopEnv :=
  { alive := false, readPid := none, modTime := none,
    killRes := ProcA.KillRes.ok }

/-- Start environment with a live child already attached. -/
def envStart : ProcA.StartEnv :=
  { alive := true, chdirOk := true, outLogOk := true, errLogOk := true,
    pipesOk := true, spawnOk := true, newPid := 43, now := 9 }

/-- Stop environment for the `process.go` variant witness. -/
def envB : ProcA.StopEnv :=
  { alive := false, readPid := some 7, modTime := none,
    killRes := ProcA.KillRes.ok }

/-- A process for the `process.go` variant witness. -/
def procB7 : ProcA.Process :=
  { pid := 7, name := "w", fullName := "app::w",
    state := PState.stopped, startAt := none, stopAt := none,
    spawned := true, hasCancel := true, stopSignal := Sig.TERM,
    cmd := ["sleep", "1"], pidFile := none }

/-- An existing project: process `a` is flagged running, `b` is not. -/
def oldProjW : Registry.Project :=
  { name := "app", workDir := "/tmp/app", procfile := "Procfile",
    running := [("a", true), ("b", false)],
    procTable :=
      [("a", { fullName := "app::a", state := PState.running }),
       ("b", { fullName := "app::b", state := PState.stopped })] }

/-- The new option declares only `b`: `a` is undeclared but running. -/
def optW : Registry.ProcfileOption :=
  { appName := "app", workDir := "/tmp/app", procfile := "Procfile",
    env := [], processes := [("b", optTerm)] }

/-- Supervisor registry state for the `UpdateApp` witness. -/
def svW : Registry.SupervisorSt :=
  { projectTable := [("app", oldProjW)]
    procList :=
      (((Registry.ProcList.empty.Add "app::a").1).Add "app::b").1 }

/-- An operation run for the `ProcList` witness: two adds, a delete,
another add. -/
def opsW : List Registry.PLOp :=
  [Registry.PLOp.add "app::a", Registry.PLOp.add "app::b",
   Registry.PLOp.del "app::a", Registry.PLOp.add "app::c"]

end Fixtures

/-! ## Helper lemmas -/

theorem lookup_filter_ne {α β : Type} [DecidableEq α] [BEq α] [LawfulBEq α]
    (n m : α) (h : m ≠ n) (l : List (α × β)) :
    (l.filter fun kv => kv.1 ≠ n).lookup m = l.lookup m := by
  induction l with
  | nil => rfl
  | cons a t ih =>
    by_cases ha : a.1 = n
    · have hd : (decide (a.1 ≠ n)) = false := by simp [ha]
      have hb : (m == a.1) = false := by
        rw [beq_eq_false_iff_ne]
        exact fun he => h (he ▸ ha)
      simp only [List.filter, hd, List.lookup, hb, ih]
    · have hd : (decide (a.1 ≠ n)) = true := by simp [ha]
      by_cases hm : m = a.1
      · simp only [List.filter, hd, List.lookup, hm, beq_self_eq_true]
      · have hb : (m == a.1) = false := by rw [beq_eq_false_iff_ne]; exact hm
        simp only [List.filter, hd, List.lookup, hb, ih]

theorem lookup_filter_self {α β : Type} [DecidableEq α] [BEq α] [LawfulBEq α]
    (n : α) (l : List (α × β)) :
    (l.filter fun kv => kv.1 ≠ n).lookup n = none := by
  induction l with
  | nil => rfl
  | cons a t ih =>
    by_cases ha : a.1 = n
    · have hd : (decide (a.1 ≠ n)) = false := by simp [ha]
      simp only [List.filter, hd, ih]
    · have hd : (decide (a.1 ≠ n)) = true := by simp [ha]
      have hb : (n == a.1) = false := by
        rw [beq_eq_false_iff_ne]
        exact fun he => ha he.symm
      simp only [List.filter, hd, List.lookup, hb, ih]

theorem lookup_append {α β : Type} [BEq α]
    (l₁ l₂ : List (α × β)) (n : α) :
    (l₁ ++ l₂).lookup n =
      match l₁.lookup n with
      | some v => some v
      | none => l₂.lookup n := by
  induction l₁ with
  | nil => rfl
  | cons a t ih =>
    by_cases hb : (n == a.1) = true
    · cases a; simp only [List.cons_append, List.lookup, hb]
    · have hb' : (n == a.1) = false := by
        cases heq : (n == a.1)
        · rfl
        · exact absurd heq hb
      cases a; simp only [List.cons_append, List.lookup, hb'] at *
      exact ih

theorem lookup_map_false {β : Type} (l : List (String × β)) (n : String) :
    (l.map fun kv => (kv.1, false)).lookup n =
      (l.lookup n).map fun _ => false := by
  induction l with
  | nil => rfl
  | cons a t ih =>
    cases hb : (n == a.1)
    · simp only [List.map, List.lookup, hb, ih]
    · simp only [List.map, List.lookup, hb, Option.map]

theorem string_append_ne (s n m : String) (h : n ≠ m) : s ++ n ≠ s ++ m := by
  intro he
  apply h
  have hd : (s ++ n).data = (s ++ m).data := congrArg String.data he
  rw [String.data_append, String.data_append] at hd
  have h2 := List.append_cancel_left hd
  cases n; cases m
  exact congrArg String.mk h2

theorem getD_false_eq_true {o : Option Bool} (h : o.getD false = true) :
    o = some true := by
  cases o with
  | none => simp at h
  | some b => cases b <;> simp_all

/-- Helper: full computation of `Stop` on a genuinely running process
(spawned, positive live pid, agreeing PID file, context present). -/
theorem stop_run_eq (p : ProcA.Process) (env : ProcA.StopEnv)
    (hs : p.spawned = true) (hp : 0 < p.pid) (ha : env.alive = true)
    (hr : env.readPid = some p.pid) (hc : p.hasCancel = true) :
    ProcA.Stop p env =
      ({ p with state := PState.stopped, startAt := none, pidFile := none },
        true,
        [ProcA.Ev.cancelCtx, ProcA.Ev.waitReaders, ProcA.Ev.graceWait,
          ProcA.Ev.signalGroup (-p.pid) p.stopSignal] ++
          (if env.killRes = ProcA.KillRes.otherErr
            then [ProcA.Ev.killGroup (-p.pid)] else []) ++
          [ProcA.Ev.removePidFile]) := by
  obtain ⟨ea, er, em, ek⟩ := env
  simp only at ha hr
  subst ha hr
  cases ek <;>
    simp [ProcA.Stop, ProcA.stopRefresh, ProcA.IsRunning, ProcA.updatePid,
      ProcA.onStop, hs, hp, hc]

/-- Helper: `Stop` on an already-stopped process whose OS child is gone
is the identity, returns true and performs no action. -/
theorem stop_stopped_noop (p : ProcA.Process) (env : ProcA.StopEnv)
    (hst : p.state = PState.stopped) (hs : p.spawned = true)
    (hp : 0 < p.pid) (ha : env.alive = false) :
    ProcA.Stop p env = (p, true, []) := by
  obtain ⟨pid, nm, fn, st, sa, so, sp, hcn, sg, cm, pf⟩ := p
  simp only at hst hs hp
  subst hst hs
  simp [ProcA.Stop, ProcA.stopRefresh, ProcA.IsRunning, ha, hp]

/-- C1: for a process in state `Running` (spawned, live positive pid,
agreeing PID file, cancellable context), `Stop` cancels the execution
context, drains the readers, performs the bounded graceful wait, then
delivers the configured stop signal to the whole process group
`kill(-pid, sig)`; SIGKILL goes to the group iff that delivery failed
with an error other than "process already gone"; the terminal state is
`Stopped` and `Stop` returns true. -/
theorem stop_running_escalation (p : ProcA.Process) (env : ProcA.StopEnv)
    (hs : p.spawned = true) (hp : 0 < p.pid) (ha : env.alive = true)
    (hr : env.readPid = some p.pid) (hc : p.hasCancel = true) :
    (ProcA.Stop p env).1.state = PState.stopped ∧
    (ProcA.Stop p env).2.1 = true ∧
    (ProcA.Stop p env).2.2 =
      [ProcA.Ev.cancelCtx, ProcA.Ev.waitReaders, ProcA.Ev.graceWait,
        ProcA.Ev.signalGroup (-p.pid) p.stopSignal] ++
        (if env.killRes = ProcA.KillRes.otherErr
          then [ProcA.Ev.killGroup (-p.pid)] else []) ++
        [ProcA.Ev.removePidFile] ∧
    (ProcA.Ev.killGroup (-p.pid) ∈ (ProcA.Stop p env).2.2 ↔
      env.killRes = ProcA.KillRes.otherErr) := by
  rw [stop_run_eq p env hs hp ha hr hc]
  refine ⟨rfl, rfl, rfl, ?_⟩
  cases env.killRes <;> simp

/-- C1 witness: the escalation theorem at a concrete running process. -/
theorem stop_running_escalation_witness :
    (ProcA.Stop Fixtures.runProc Fixtures.envLive).1.state = PState.stopped ∧
    (ProcA.Stop Fixtures.runProc Fixtures.envLive).2.1 = true ∧
    (ProcA.Stop Fixtures.runProc Fixtures.envLive).2.2 =
      [ProcA.Ev.cancelCtx, ProcA.Ev.waitReaders, ProcA.Ev.graceWait,
        ProcA.Ev.signalGroup (-Fixtures.runProc.pid)
          Fixtures.runProc.stopSignal] ++
        (if Fixtures.envLive.killRes = ProcA.KillRes.otherErr
          then [ProcA.Ev.killGroup (-Fixtures.runProc.pid)] else []) ++
        [ProcA.Ev.removePidFile] ∧
    (ProcA.Ev.killGroup (-Fixtures.runProc.pid) ∈
        (ProcA.Stop Fixtures.runProc Fixtures.envLive).2.2 ↔
      Fixtures.envLive.killRes = ProcA.KillRes.otherErr) :=
  stop_running_escalation Fixtures.runProc Fixtures.envLive rfl (by decide)
    rfl rfl rfl

/-- C4: calling `Start` on a process already in state `Running` (with
its spawned child alive) returns success, spawns nothing, and leaves the
process — in particular the recorded `Pid` — unchanged. -/
theorem start_running_no_respawn (p : ProcA.Process) (env : ProcA.StartEnv)
    (hst : p.state = PState.running) (hs : p.spawned = true)
    (ha : env.alive = true) :
    ProcA.Start p env = (p, true, []) := by
  obtain ⟨pid, nm, fn, st, sa, so, sp, hcn, sg, cm, pf⟩ := p
  simp only at hst hs
  subst hst hs
  simp [ProcA.Start, ProcA.IsRunning, ha]

/-- C4 witness: `Start` on the concrete running process. -/
theorem start_running_no_respawn_witness :
    ProcA.Start Fixtures.runProc Fixtures.envStart =
      (Fixtures.runProc, true, []) :=
  start_running_no_respawn Fixtures.runProc Fixtures.envStart rfl rfl rfl

/-- C5: `Stop` is idempotent.  On a process already in state `Stopped`
(spawned child gone), `Stop` is a no-op that returns true; and after a
real stop, a second `Stop` leaves the state and the observable actions
exactly those of the first. -/
theorem stop_idempotent :
    (∀ (p : ProcA.Process) (env : ProcA.StopEnv),
      p.state = PState.stopped → p.spawned = true → 0 < p.pid →
      env.alive = false → ProcA.Stop p env = (p, true, [])) ∧
    (∀ (p : ProcA.Process) (env env' : ProcA.StopEnv),
      p.spawned = true → 0 < p.pid → env.alive = true →
      env.readPid = some p.pid → p.hasCancel = true → env'.alive = false →
      ProcA.Stop (ProcA.Stop p env).1 env' =
        ((ProcA.Stop p env).1, true, [])) := by
  constructor
  · intro p env hst hs hp ha
    exact stop_stopped_noop p env hst hs hp ha
  · intro p env env' hs hp ha hr hc ha'
    rw [stop_run_eq p env hs hp ha hr hc]
    exact stop_stopped_noop _ env' rfl hs hp ha'

/-- C5 witness: both parts at concrete inputs. -/
theorem stop_idempotent_witness :
    ProcA.Stop Fixtures.stoppedProc Fixtures.envDead =
      (Fixtures.stoppedProc, true, []) ∧
    ProcA.Stop (ProcA.Stop Fixtures.runProc Fixtures.envLive).1
        Fixtures.envDead =
      ((ProcA.Stop Fixtures.runProc Fixtures.envLive).1, true, []) :=
  ⟨stop_idempotent.1 Fixtures.stoppedProc Fixtures.envDead rfl rfl
      (by decide) rfl,
    stop_idempotent.2 Fixtures.runProc Fixtures.envLive Fixtures.envDead
      rfl (by decide) rfl rfl rfl rfl⟩

/-- C6 counterexample: a spawned process whose `Pid` is 0 (exactly what
`Restart` leaves behind between its stop and start phases) makes
`IsRunning` return true even though the signal-0 probe reports the
child as not alive — the probe is skipped whenever `Pid ≤ 0`, refuting
"returns true only when ... a signal-0 probe of its current Pid
succeeds". -/
theorem isRunning_true_without_probe :
    (ProcA.IsRunning Fixtures.cexProc false).2 = true ∧
    Fixtures.cexProc.spawned = true ∧ Fixtures.cexProc.pid = 0 := by
  decide

/-- C6 (amended): `IsRunning` returns true iff the process has a prior
successful spawn and, **when `Pid > 0`**, the signal-0 probe succeeds
(for `Pid ≤ 0` no probe is made); it sets `State` to `Running` exactly
when it returns true, to `Standby` when there was no spawn, and to
`Stopped` when the probe of a positive pid fails; it never changes
`Pid`. -/
theorem isRunning_amended (p : ProcA.Process) (alive : Bool) :
    ((ProcA.IsRunning p alive).2 = true ↔
      p.spawned = true ∧ (0 < p.pid → alive = true)) ∧
    ((ProcA.IsRunning p alive).1.state = PState.running ↔
      (ProcA.IsRunning p alive).2 = true) ∧
    (p.spawned = false →
      (ProcA.IsRunning p alive).1.state = PState.standby) ∧
    (p.spawned = true → 0 < p.pid → alive = false →
      (ProcA.IsRunning p alive).1.state = PState.stopped) ∧
    (ProcA.IsRunning p alive).1.pid = p.pid := by
  obtain ⟨pid, nm, fn, st, sa, so, sp, hcn, sg, cm, pf⟩ := p
  cases sp <;> cases alive <;> by_cases hp : (0 : Int) < pid <;>
    simp [ProcA.IsRunning, hp]

/-- C6 witness: the amended characterisation at the concrete process. -/
theorem isRunning_amended_witness :
    ((ProcA.IsRunning Fixtures.runProc true).2 = true ↔
      Fixtures.runProc.spawned = true ∧
        (0 < Fixtures.runProc.pid → true = true)) ∧
    ((ProcA.IsRunning Fixtures.runProc true).1.state = PState.running ↔
      (ProcA.IsRunning Fixtures.runProc true).2 = true) ∧
    (Fixtures.runProc.spawned = false →
      (ProcA.IsRunning Fixtures.runProc true).1.state = PState.standby) ∧
    (Fixtures.runProc.spawned = true → 0 < Fixtures.runProc.pid →
      true = false →
      (ProcA.IsRunning Fixtures.runProc true).1.state = PState.stopped) ∧
    (ProcA.IsRunning Fixtures.runProc true).1.pid = Fixtures.runProc.pid :=
  isRunning_amended Fixtures.runProc true

/-- C9 counterexample: `NewProcess` of `src/pkg/supervisor/process.go`
initialises `Pid` to -1, not 0. -/
theorem newProcess_pid_neg_one :
    (ProcB.NewProcess "app::web" Fixtures.optTerm).pid = -1 ∧
    (ProcB.NewProcess "app::web" Fixtures.optTerm).pid ≠ 0 := by
  constructor
  · rfl
  · decide

/-- C9 (amended): in `src/pkg/supervisor/process.go` the never-started
sentinel is `Pid = -1`; `Restart` resets `Pid` to -1 between its stop
phase and the subsequent `Start`; `Stop` itself leaves `Pid` unchanged
(a currently stopped process keeps its last recorded pid). -/
theorem pid_sentinel_amended :
    (∀ (fullName : String) (opts : ProcessOption),
      (ProcB.NewProcess fullName opts).pid = -1) ∧
    (∀ (p : ProcA.Process) (env : ProcA.StopEnv),
      (ProcB.RestartMid p env).pid = -1) ∧
    (∀ (p : ProcA.Process) (env : ProcA.StopEnv),
      env.readPid = some p.pid → (ProcB.Stop p env).1.pid = p.pid) := by
  refine ⟨fun _ _ => rfl, fun _ _ => rfl, ?_⟩
  intro p env hr
  obtain ⟨pid, nm, fn, st, sa, so, sp, hcn, sg, cm, pf⟩ := p
  obtain ⟨ea, er, em, ek⟩ := env
  simp only at hr
  subst hr
  cases sp <;> cases ea <;> by_cases hp : (0 : Int) < pid <;>
    cases st <;> cases hcn <;> cases ek <;>
    simp [ProcB.Stop, ProcA.stopRefresh, ProcA.IsRunning, ProcA.updatePid,
      ProcA.onStop, hp]

/-- C9 witness: the `Stop` clause of the amended theorem at a concrete
process. -/
theorem pid_sentinel_amended_witness :
    (ProcB.Stop Fixtures.procB7 Fixtures.envB).1.pid =
      Fixtures.procB7.pid :=
  pid_sentinel_amended.2.2 Fixtures.procB7 Fixtures.envB rfl

/-- C2 counterexample: the frame the client actually sends for a
one-byte body is not the 8-byte-length framing the claim describes (its
length prefix occupies `strconv.IntSize` = 64 bytes). -/
theorem frame_not_eight_byte :
    Wire.writeFrame [161] ≠ Wire.specFrame [161] := by decide

/-- C2 (amended): every request and response is framed as a
`strconv.IntSize`-byte (= 64-byte) prefix whose first 8 bytes are the
big-endian unsigned length (the remaining 56 bytes are zero), followed
by exactly that many bytes of CBOR body; the reader symmetrically
consumes 64 prefix bytes and decodes the length from the first 8, so a
written frame reads back to its body. -/
theorem frame_len_sixtyfour (body : List Nat)
    (h : body.length < 2 ^ 64) :
    Wire.writeFrame body =
      Wire.putUint64BE body.length ++ List.replicate 56 0 ++ body ∧
    (Wire.sizeBuf body.length).length = Wire.intSize ∧
    Wire.beUint64 (Wire.sizeBuf body.length) = body.length ∧
    Wire.readFrame (Wire.writeFrame body) = body := by
  have hlen : (Wire.sizeBuf body.length).length = 64 := by
    simp [Wire.sizeBuf, Wire.putUint64BE, Wire.intSize]
  have hbe : Wire.beUint64 (Wire.sizeBuf body.length) = body.length := by
    simp only [Wire.sizeBuf, Wire.putUint64BE, Wire.beUint64, List.cons_append,
      List.nil_append, List.take, List.foldl]
    omega
  refine ⟨?_, hlen, hbe, ?_⟩
  · simp [Wire.writeFrame, Wire.sizeBuf, Wire.intSize]
  · show ((Wire.sizeBuf body.length ++ body).drop 64).take
        (Wire.beUint64 ((Wire.sizeBuf body.length ++ body).take 64)) = body
    rw [List.take_left' hlen, List.drop_left' hlen, hbe, List.take_length]

/-- C2 witness: the amended framing theorem at a concrete body. -/
theorem frame_len_sixtyfour_witness :
    Wire.writeFrame [7, 8, 9] =
      Wire.putUint64BE ([7, 8, 9] : List Nat).length ++
        List.replicate 56 0 ++ [7, 8, 9] ∧
    (Wire.sizeBuf ([7, 8, 9] : List Nat).length).length = Wire.intSize ∧
    Wire.beUint64 (Wire.sizeBuf ([7, 8, 9] : List Nat).length) =
      ([7, 8, 9] : List Nat).length ∧
    Wire.readFrame (Wire.writeFrame [7, 8, 9]) = [7, 8, 9] :=
  frame_len_sixtyfour [7, 8, 9] (by decide)

/-- C7: the compiled cleaning pattern of `GetAppName` does not replace
the listed special characters — the unescaped `]` terminates the
character class early, so only the five-character sequences
`<classChar>\r\n\t]` are replaced.  For the work directory
`"/tmp/a b"` the space survives into the app name
(`"a b-9bZz3oXP"`), whereas the cleaning described by the spec would
produce `"a_b"`. -/
theorem getAppName_space_not_cleaned :
    AppName.GetAppName "/tmp/a b" = "a b-9bZz3oXP" ∧
    AppName.cleanAppBase "a b" = "a b" ∧
    AppName.specCleanBase "a b" = "a_b" := by
  exact ⟨by decide, by decide, by decide⟩

/-- Helper: the name pattern requires at least two characters. -/
theorem nameReMatch_short (s : List Char) (h : s.length < 2) :
    Procfile.nameReMatch s = false := by
  match s, h with
  | [], _ => rfl
  | [c], _ => rfl

/-- C10: Procfile validation rejects every process name shorter than two
characters: any configuration containing a key of fewer than two
characters (in particular a single letter) makes `IsValid` return
false, because `^[A-Za-z]+[A-Za-z0-9-_]+$` needs a leading letter plus
at least one further character. -/
theorem isValid_rejects_single_char (cfg : List (String × String))
    (k v : String) (hmem : (k, v) ∈ cfg) (hlen : k.data.length < 2) :
    Procfile.IsValid cfg = false := by
  have h1 := nameReMatch_short k.data hlen
  rw [Procfile.IsValid, Bool.eq_false_iff]
  intro hall
  have h2 := List.all_eq_true.mp hall (k, v) hmem
  rw [h1] at h2
  exact Bool.false_ne_true h2

/-- C10 witness: a Procfile with the single-letter key `a` is invalid. -/
theorem isValid_rejects_single_char_witness :
    Procfile.IsValid [("a", "sleep 1")] = false :=
  isValid_rejects_single_char [("a", "sleep 1")] "a" "sleep 1"
    (List.mem_singleton.mpr rfl) (by decide)

/-- Helper: lookup at the head key of a cons. -/
theorem lookup_cons_self {α β : Type} [BEq α] [LawfulBEq α]
    (k : α) (v : β) (l : List (α × β)) :
    ((k, v) :: l).lookup k = some v := by
  simp [List.lookup]

/-- Helper: lookup past a cons with a different key. -/
theorem lookup_cons_ne {α β : Type} [BEq α] [LawfulBEq α]
    (k m : α) (v : β) (l : List (α × β)) (h : m ≠ k) :
    ((k, v) :: l).lookup m = l.lookup m := by
  have hb : (m == k) = false := by rw [beq_eq_false_iff_ne]; exact h
  simp [List.lookup, hb]

/-- Helper: the empty `ProcList` is well formed. -/
theorem wf_empty : Registry.PLWf Registry.ProcList.empty := by
  refine ⟨by decide, ?_, ?_, ?_, ?_⟩ <;> intro a b h <;>
    simp [List.lookup] at h

/-- Helper: `Add` on an absent key appends `last+1` to `index`. -/
theorem add_index (pl : Registry.ProcList) (n : String)
    (hl : pl.place.lookup n = none) :
    ((pl.Add n).1).index = pl.index ++ [pl.index.getLastD (-1) + 1] := by
  unfold Registry.ProcList.Add
  rw [hl]

/-- Helper: `Add` on an absent key conses the new place entry. -/
theorem add_place (pl : Registry.ProcList) (n : String)
    (hl : pl.place.lookup n = none) :
    ((pl.Add n).1).place = (n, pl.index.getLastD (-1) + 1) :: pl.place := by
  unfold Registry.ProcList.Add
  rw [hl]

/-- Helper: `Add` on an absent key conses the new table entry. -/
theorem add_table (pl : Registry.ProcList) (n : String)
    (hl : pl.place.lookup n = none) :
    ((pl.Add n).1).table = (pl.index.getLastD (-1) + 1, n) :: pl.table := by
  unfold Registry.ProcList.Add
  rw [hl]

/-- Helper: `Add` preserves well-formedness. -/
theorem wf_add (pl : Registry.ProcList) (n : String)
    (h : Registry.PLWf pl) : Registry.PLWf (pl.Add n).1 := by
  cases hl : pl.place.lookup n with
  | some i =>
    have he : (pl.Add n).1 = pl := by
      unfold Registry.ProcList.Add
      rw [hl]
    rw [he]
    exact h
  | none =>
    have hidx := add_index pl n hl
    have hplace := add_place pl n hl
    have htable := add_table pl n hl
    have hlast := h.lastIdx
    have hlen : (((pl.Add n).1).index.length : Int) =
        (pl.index.length : Int) + 1 := by
      rw [hidx, List.length_append, List.length_singleton]
      push_cast
      omega
    constructor
    · rw [hidx]
      simp only [List.getLastD_concat, List.length_append,
        List.length_singleton]
      push_cast
      omega
    · intro m i hm
      rw [hplace] at hm
      by_cases hmn : m = n
      · subst hmn
        rw [lookup_cons_self] at hm
        cases hm
        rw [hlen]
        omega
      · rw [lookup_cons_ne _ _ _ _ hmn] at hm
        have hb := h.placeBound m i hm
        rw [hlen]
        omega
    · intro i m hm
      rw [htable] at hm
      by_cases hin : i = pl.index.getLastD (-1) + 1
      · rw [hin] at hm ⊢
        rw [lookup_cons_self] at hm
        rw [hlen]
        omega
      · rw [lookup_cons_ne _ _ _ _ hin] at hm
        have hb := h.tableBound i m hm
        rw [hlen]
        omega
    · intro i m hm
      rw [htable] at hm
      rw [hplace]
      by_cases hin : i = pl.index.getLastD (-1) + 1
      · rw [hin] at hm ⊢
        rw [lookup_cons_self] at hm
        cases hm
        rw [lookup_cons_self]
      · rw [lookup_cons_ne _ _ _ _ hin] at hm
        have hpl := h.inv₁ i m hm
        have hmn : m ≠ n := by
          intro he
          rw [he, hl] at hpl
          cases hpl
        rw [lookup_cons_ne _ _ _ _ hmn]
        exact hpl
    · intro m i hm
      rw [hplace] at hm
      rw [htable]
      by_cases hmn : m = n
      · subst hmn
        rw [lookup_cons_self] at hm
        cases hm
        rw [lookup_cons_self]
      · rw [lookup_cons_ne _ _ _ _ hmn] at hm
        have htb := h.inv₂ m i hm
        have hbd := h.placeBound m i hm
        have hin : i ≠ pl.index.getLastD (-1) + 1 := by
          have := h.lastIdx
          omega
        rw [lookup_cons_ne _ _ _ _ hin]
        exact htb

/-- Helper: `Del` leaves the `index` slice untouched. -/
theorem del_index (pl : Registry.ProcList) (n : String) :
    ((pl.Del n).1).index = pl.index := by
  unfold Registry.ProcList.Del
  cases pl.place.lookup n <;> rfl

/-- Helper: `Del` preserves well-formedness. -/
theorem wf_del (pl : Registry.ProcList) (n : String)
    (h : Registry.PLWf pl) : Registry.PLWf (pl.Del n).1 := by
  cases hl : pl.place.lookup n with
  | none =>
    have he : (pl.Del n).1 = pl := by
      unfold Registry.ProcList.Del
      rw [hl]
    rw [he]
    exact h
  | some j =>
    have hplace : ((pl.Del n).1).place =
        pl.place.filter (fun kv => kv.1 ≠ n) := by
      unfold Registry.ProcList.Del
      rw [hl]
    have htable : ((pl.Del n).1).table =
        pl.table.filter (fun kv => kv.1 ≠ j) := by
      unfold Registry.ProcList.Del
      rw [hl]
    have hidx := del_index pl n
    constructor
    · rw [hidx]
      exact h.lastIdx
    · intro m i hm
      rw [hplace] at hm
      rw [hidx]
      by_cases hmn : m = n
      · subst hmn
        rw [lookup_filter_self] at hm
        cases hm
      · rw [lookup_filter_ne n m hmn] at hm
        exact h.placeBound m i hm
    · intro i m hm
      rw [htable] at hm
      rw [hidx]
      by_cases hij : i = j
      · subst hij
        rw [lookup_filter_self] at hm
        cases hm
      · rw [lookup_filter_ne j i hij] at hm
        exact h.tableBound i m hm
    · intro i m hm
      rw [htable] at hm
      rw [hplace]
      by_cases hij : i = j
      · subst hij
        rw [lookup_filter_self] at hm
        cases hm
      · rw [lookup_filter_ne j i hij] at hm
        have hpl := h.inv₁ i m hm
        have hmn : m ≠ n := by
          intro he
          rw [he, hl] at hpl
          cases hpl
          exact hij rfl
        rw [lookup_filter_ne n m hmn]
        exact hpl
    · intro m i hm
      rw [hplace] at hm
      rw [htable]
      by_cases hmn : m = n
      · subst hmn
        rw [lookup_filter_self] at hm
        cases hm
      · rw [lookup_filter_ne n m hmn] at hm
        have htb := h.inv₂ m i hm
        have hij : i ≠ j := by
          intro he
          have h2 := h.inv₂ n j hl
          rw [he] at htb
          rw [htb] at h2
          cases h2
          exact hmn rfl
        rw [lookup_filter_ne j i hij]
        exact htb

/-- Helper: well-formedness along any operation run. -/
theorem wf_foldl (ops : List Registry.PLOp) :
    ∀ pl, Registry.PLWf pl →
      Registry.PLWf (ops.foldl Registry.applyOp pl) := by
  induction ops with
  | nil => intro pl h; exact h
  | cons op rest ih =>
    intro pl h
    cases op with
    | add n => exact ih _ (wf_add pl n h)
    | del n => exact ih _ (wf_del pl n h)

/-- Helper: every state reached from the empty list is well formed. -/
theorem wf_runOps (ops : List Registry.PLOp) :
    Registry.PLWf (Registry.runOps ops) :=
  wf_foldl ops _ wf_empty

/-- Helper: the indices assigned during a run are all above the current
last index and pairwise increasing. -/
theorem addTrace_mono (ops : List Registry.PLOp) :
    ∀ pl, Registry.PLWf pl →
      (∀ x ∈ Registry.addTrace pl ops, pl.index.getLastD (-1) < x) ∧
      List.Pairwise (· < ·) (Registry.addTrace pl ops) := by
  induction ops with
  | nil =>
    intro pl _
    exact ⟨fun x hx => absurd hx (List.not_mem_nil x), List.Pairwise.nil⟩
  | cons op rest ih =>
    intro pl h
    cases op with
    | add n =>
      unfold Registry.addTrace
      cases hl : pl.place.lookup n with
      | some i => exact ih pl h
      | none =>
        have hlast : ((pl.Add n).1).index.getLastD (-1) =
            pl.index.getLastD (-1) + 1 := by
          rw [add_index pl n hl]
          simp
        obtain ⟨ihlow, ihpw⟩ := ih (pl.Add n).1 (wf_add pl n h)
        rw [hlast] at ihlow
        constructor
        · intro x hx
          rcases List.mem_cons.mp hx with he | hm
          · omega
          · have := ihlow x hm
            omega
        · refine List.pairwise_cons.mpr ⟨?_, ihpw⟩
          intro x hx
          have := ihlow x hx
          omega
    | del n =>
      unfold Registry.addTrace
      obtain ⟨ihlow, ihpw⟩ := ih (pl.Del n).1 (wf_del pl n h)
      rw [del_index] at ihlow
      exact ⟨ihlow, ihpw⟩

/-- C8: `ProcList` hands out strictly increasing, never-reused integer
indices over any run of `Add`/`Del` operations (deletions do not
renumber), and on every reachable state the two maps form a bijection:
`Index (Get i) = i` for every stored index and `Get (Index n) = n` for
every stored name. -/
theorem procList_bijection (ops : List Registry.PLOp) :
    List.Pairwise (· < ·)
      (Registry.addTrace Registry.ProcList.empty ops) ∧
    (∀ (i : Int) (n : String), (Registry.runOps ops).Get i = some n →
      (Registry.runOps ops).Index n = i) ∧
    (∀ (n : String) (i : Int),
      (Registry.runOps ops).place.lookup n = some i →
      (Registry.runOps ops).Get ((Registry.runOps ops).Index n) =
        some n) := by
  have hwf := wf_runOps ops
  refine ⟨(addTrace_mono ops _ wf_empty).2, ?_, ?_⟩
  · intro i n h
    unfold Registry.ProcList.Get at h
    have := hwf.inv₁ i n h
    unfold Registry.ProcList.Index
    rw [this]
    rfl
  · intro n i h
    unfold Registry.ProcList.Index
    rw [h]
    exact hwf.inv₂ n i h

/-- C8 witness: the bijection at a concrete run (two adds, one delete,
one further add — index 2 is fresh, 0 is never reused). -/
theorem procList_bijection_witness :
    (Registry.runOps Fixtures.opsW).Index "app::b" = 1 ∧
    (Registry.runOps Fixtures.opsW).Get
        ((Registry.runOps Fixtures.opsW).Index "app::b") = some "app::b" :=
  ⟨(procList_bijection Fixtures.opsW).2.1 1 "app::b" (by decide),
    (procList_bijection Fixtures.opsW).2.2 "app::b" 1 (by decide)⟩

/-- Helper: `Del` of one name does not disturb another name's place
entry. -/
theorem del_place_preserve (pl : Registry.ProcList) (a b : String)
    (h : b ≠ a) : ((pl.Del a).1).place.lookup b = pl.place.lookup b := by
  cases hl : pl.place.lookup a with
  | none =>
    have he : (pl.Del a).1 = pl := by
      unfold Registry.ProcList.Del
      rw [hl]
    rw [he]
  | some j =>
    have hp : ((pl.Del a).1).place =
        pl.place.filter (fun kv => kv.1 ≠ a) := by
      unfold Registry.ProcList.Del
      rw [hl]
    rw [hp, lookup_filter_ne a b h]

/-- Helper: `Add` never drops an existing place entry. -/
theorem add_place_isSome (pl : Registry.ProcList) (a b : String)
    (h : (pl.place.lookup b).isSome) :
    (((pl.Add a).1).place.lookup b).isSome := by
  cases hl : pl.place.lookup a with
  | some i =>
    have he : (pl.Add a).1 = pl := by
      unfold Registry.ProcList.Add
      rw [hl]
    rw [he]
    exact h
  | none =>
    rw [add_place pl a hl]
    by_cases hab : b = a
    · subst hab
      rw [lookup_cons_self]
      rfl
    · rw [lookup_cons_ne _ _ _ _ hab]
      exact h

/-- Helper: one removal step keeps the project's name. -/
theorem removalStep_name (np : Registry.Project)
    (acc : Registry.Project × Registry.ProcList) (m : String) :
    (Registry.removalStep np acc m).1.name = acc.1.name := by
  unfold Registry.removalStep
  split <;> rfl

/-- Helper: one removal step does not touch the entries of a process
that is declared in the new option or flagged running. -/
theorem removalStep_preserve (np : Registry.Project)
    (acc : Registry.Project × Registry.ProcList) (m n : String)
    (h : np.IsExist n = true ∨ acc.1.running.lookup n = some true) :
    (Registry.removalStep np acc m).1.procTable.lookup n =
      acc.1.procTable.lookup n ∧
    (Registry.removalStep np acc m).1.running.lookup n =
      acc.1.running.lookup n ∧
    (Registry.removalStep np acc m).2.place.lookup
        (acc.1.name ++ "::" ++ n) =
      acc.2.place.lookup (acc.1.name ++ "::" ++ n) := by
  unfold Registry.removalStep
  by_cases hc : (!(np.IsExist m) && !(acc.1.GetState m)) = true
  · rw [if_pos hc]
    have hmn : m ≠ n := by
      intro he
      subst he
      rw [Bool.and_eq_true] at hc
      obtain ⟨hc1, hc2⟩ := hc
      rw [Bool.not_eq_true'] at hc1 hc2
      rcases h with h1 | h2
      · rw [h1] at hc1
        cases hc1
      · unfold Registry.Project.GetState at hc2
        rw [h2] at hc2
        simp at hc2
    refine ⟨?_, ?_, ?_⟩
    · show ((acc.1.Unset m).procTableDel m).procTable.lookup n =
        acc.1.procTable.lookup n
      unfold Registry.Project.Unset Registry.Project.procTableDel
      exact lookup_filter_ne m n (Ne.symm hmn) _
    · show ((acc.1.Unset m).procTableDel m).running.lookup n =
        acc.1.running.lookup n
      unfold Registry.Project.Unset Registry.Project.procTableDel
      exact lookup_filter_ne m n (Ne.symm hmn) _
    · show ((acc.2.Del (acc.1.name ++ "::" ++ m)).1).place.lookup
          (acc.1.name ++ "::" ++ n) =
        acc.2.place.lookup (acc.1.name ++ "::" ++ n)
      exact del_place_preserve acc.2 _ _
        (string_append_ne (acc.1.name ++ "::") n m (Ne.symm hmn))
  · rw [if_neg hc]
    exact ⟨rfl, rfl, rfl⟩

/-- Helper: the whole removal loop does not touch the entries of a
declared-or-running process. -/
theorem removal_fold_preserve (np : Registry.Project)
    (names : List String) :
    ∀ (acc : Registry.Project × Registry.ProcList) (n : String),
      (np.IsExist n = true ∨ acc.1.running.lookup n = some true) →
      (names.foldl (Registry.removalStep np) acc).1.name = acc.1.name ∧
      (names.foldl (Registry.removalStep np) acc).1.procTable.lookup n =
        acc.1.procTable.lookup n ∧
      (names.foldl (Registry.removalStep np) acc).1.running.lookup n =
        acc.1.running.lookup n ∧
      (names.foldl (Registry.removalStep np) acc).2.place.lookup
          (acc.1.name ++ "::" ++ n) =
        acc.2.place.lookup (acc.1.name ++ "::" ++ n) := by
  induction names with
  | nil =>
    intro acc n h
    exact ⟨rfl, rfl, rfl, rfl⟩
  | cons m rest ih =>
    intro acc n h
    rw [List.foldl_cons]
    have hname := removalStep_name np acc m
    have hstep := removalStep_preserve np acc m n h
    have h' : np.IsExist n = true ∨
        (Registry.removalStep np acc m).1.running.lookup n = some true := by
      rcases h with h1 | h2
      · exact Or.inl h1
      · right
        rw [hstep.2.1, h2]
    have hrest := ih (Registry.removalStep np acc m) n h'
    refine ⟨?_, ?_, ?_, ?_⟩
    · rw [hrest.1, hname]
    · rw [hrest.2.1, hstep.1]
    · rw [hrest.2.2.1, hstep.2.1]
    · have h4 := hrest.2.2.2
      rw [hname] at h4
      rw [h4, hstep.2.2]

/-- Helper: `Register` keeps the project's name. -/
theorem register_name (p : Registry.Project) (name : String)
    (opt : ProcessOption) : ((p.Register name opt).1).name = p.name := by
  unfold Registry.Project.Register Registry.Project.setFlag
  split <;> split <;> rfl

/-- Helper: `Register` never drops an existing procTable entry. -/
theorem register_procTable_isSome (p : Registry.Project) (name : String)
    (opt : ProcessOption) (n : String)
    (h : (p.procTable.lookup n).isSome) :
    (((p.Register name opt).1).procTable.lookup n).isSome := by
  unfold Registry.Project.Register
  cases hl : p.procTable.lookup name with
  | some pr =>
    show (((p.setFlag name false)).procTable.lookup n).isSome
    unfold Registry.Project.setFlag
    split <;> exact h
  | none =>
    show ((({ p.setFlag name false with
        procTable := p.procTable ++
          [(name, { fullName := p.name ++ "::" ++ name,
                    state := PState.standby })] } :
        Registry.Project)).procTable.lookup n).isSome
    show ((p.procTable ++
      [(name, ({ fullName := p.name ++ "::" ++ name,
                 state := PState.standby } : Registry.RegProc))]).lookup
        n).isSome
    rw [lookup_append]
    cases hn : p.procTable.lookup n with
    | none =>
      rw [hn] at h
      cases h
    | some x => rfl

/-- Helper: one registration step keeps the project's name and never
drops procTable or place entries. -/
theorem registerStep_preserve (sv : Registry.SupervisorSt)
    (appName npName : String)
    (acc : Registry.Project × Registry.ProcList × List Registry.RegProc)
    (kv : String × ProcessOption) (n : String) :
    (Registry.registerStep sv appName npName acc kv).1.name =
      acc.1.name ∧
    ((acc.1.procTable.lookup n).isSome →
      ((Registry.registerStep sv appName npName acc kv).1.procTable.lookup
        n).isSome) ∧
    (∀ key, (acc.2.1.place.lookup key).isSome →
      ((Registry.registerStep sv appName npName acc
        kv).2.1.place.lookup key).isSome) := by
  simp only [Registry.registerStep]
  split
  · split
    · exact ⟨rfl, fun h => h, fun key h => h⟩
    · exact ⟨register_name _ _ _,
        fun h => register_procTable_isSome _ _ _ _ h,
        fun key h => add_place_isSome _ _ key h⟩
  · exact ⟨register_name _ _ _,
      fun h => register_procTable_isSome _ _ _ _ h,
      fun key h => add_place_isSome _ _ key h⟩

/-- Helper: the whole registration loop keeps the project's name and
never drops procTable or place entries. -/
theorem register_fold_preserve (sv : Registry.SupervisorSt)
    (appName npName : String) (xs : List (String × ProcessOption)) :
    ∀ (acc : Registry.Project × Registry.ProcList ×
        List Registry.RegProc) (n : String),
      (xs.foldl (Registry.registerStep sv appName npName) acc).1.name =
        acc.1.name ∧
      ((acc.1.procTable.lookup n).isSome →
        ((xs.foldl (Registry.registerStep sv appName npName)
          acc).1.procTable.lookup n).isSome) ∧
      (∀ key, (acc.2.1.place.lookup key).isSome →
        ((xs.foldl (Registry.registerStep sv appName npName)
          acc).2.1.place.lookup key).isSome) := by
  induction xs with
  | nil =>
    intro acc n
    exact ⟨rfl, fun h => h, fun key h => h⟩
  | cons kv rest ih =>
    intro acc n
    rw [List.foldl_cons]
    have hstep := registerStep_preserve sv appName npName acc kv n
    have hrest := ih (Registry.registerStep sv appName npName acc kv) n
    refine ⟨?_, ?_, ?_⟩
    · rw [hrest.1, hstep.1]
    · intro h
      exact hrest.2.1 (hstep.2.1 h)
    · intro key h
      exact hrest.2.2 key (hstep.2.2 key h)

/-- Helper: the shape of `UpdateApp(force=false)` on an existing
project. -/
theorem updateApp_false_eq (sv : Registry.SupervisorSt)
    (opt : Registry.ProcfileOption) (oldP : Registry.Project)
    (hold : sv.projectTable.lookup opt.appName = some oldP) :
    Registry.UpdateApp sv false opt =
      ({ projectTable := Registry.tableUpdate sv.projectTable opt.appName
           (Registry.regFold sv opt.appName
             (Registry.CreateProject opt).name opt.processes
             (Registry.remFold sv.procList (Registry.CreateProject opt)
               oldP)).1
         procList := (Registry.regFold sv opt.appName
             (Registry.CreateProject opt).name opt.processes
             (Registry.remFold sv.procList (Registry.CreateProject opt)
               oldP)).2.1 },
        some (Registry.regFold sv opt.appName
          (Registry.CreateProject opt).name opt.processes
          (Registry.remFold sv.procList (Registry.CreateProject opt)
            oldP)).1,
        (Registry.regFold sv opt.appName
          (Registry.CreateProject opt).name opt.processes
          (Registry.remFold sv.procList (Registry.CreateProject opt)
            oldP)).2.2) := by
  simp only [Registry.UpdateApp, hold, Bool.false_eq_true, if_false]

/-- C3: `UpdateApp` with `force = false` removes an existing process
from the project's procTable and from the global `ProcList` only if it
is both undeclared in the new option and not flagged running; a process
whose intended-running flag is true is never removed, whatever the new
option declares. -/
theorem updateApp_never_removes_running (sv : Registry.SupervisorSt)
    (opt : Registry.ProcfileOption) (oldP : Registry.Project)
    (n : String) (finalP : Registry.Project)
    (hold : sv.projectTable.lookup opt.appName = some oldP)
    (hname : oldP.name = opt.appName)
    (hfin : (Registry.UpdateApp sv false opt).2.1 = some finalP) :
    ((oldP.procTable.lookup n).isSome →
      finalP.procTable.lookup n = none →
      (opt.processes.lookup n).isNone ∧ oldP.GetState n = false) ∧
    ((sv.procList.place.lookup (opt.appName ++ "::" ++ n)).isSome →
      (Registry.UpdateApp sv false opt).1.procList.place.lookup
        (opt.appName ++ "::" ++ n) = none →
      (opt.processes.lookup n).isNone ∧ oldP.GetState n = false) ∧
    (oldP.GetState n = true →
      ((oldP.procTable.lookup n).isSome →
        (finalP.procTable.lookup n).isSome) ∧
      ((sv.procList.place.lookup (opt.appName ++ "::" ++ n)).isSome →
        ((Registry.UpdateApp sv false opt).1.procList.place.lookup
          (opt.appName ++ "::" ++ n)).isSome)) := by
  have hua := updateApp_false_eq sv opt oldP hold
  have hfinal : finalP =
      (Registry.regFold sv opt.appName (Registry.CreateProject opt).name
        opt.processes
        (Registry.remFold sv.procList (Registry.CreateProject opt)
          oldP)).1 := by
    rw [hua] at hfin
    exact (Option.some.inj hfin).symm
  have hpl : (Registry.UpdateApp sv false opt).1.procList =
      (Registry.regFold sv opt.appName (Registry.CreateProject opt).name
        opt.processes
        (Registry.remFold sv.procList (Registry.CreateProject opt)
          oldP)).2.1 := by
    rw [hua]
  have main : ((opt.processes.lookup n).isSome ∨
      oldP.GetState n = true) →
      ((oldP.procTable.lookup n).isSome →
        ((Registry.regFold sv opt.appName
          (Registry.CreateProject opt).name opt.processes
          (Registry.remFold sv.procList (Registry.CreateProject opt)
            oldP)).1.procTable.lookup n).isSome) ∧
      ((sv.procList.place.lookup (opt.appName ++ "::" ++ n)).isSome →
        ((Registry.regFold sv opt.appName
          (Registry.CreateProject opt).name opt.processes
          (Registry.remFold sv.procList (Registry.CreateProject opt)
            oldP)).2.1.place.lookup
          (opt.appName ++ "::" ++ n)).isSome) := by
    intro hk
    have hkeep : (Registry.CreateProject opt).IsExist n = true ∨
        oldP.running.lookup n = some true := by
      rcases hk with h1 | h2
      · left
        unfold Registry.Project.IsExist Registry.CreateProject
        rw [lookup_map_false]
        cases hx : opt.processes.lookup n with
        | none =>
          rw [hx] at h1
          cases h1
        | some x => rfl
      · right
        unfold Registry.Project.GetState at h2
        exact getD_false_eq_true h2
    have hrem := removal_fold_preserve (Registry.CreateProject opt)
      (oldP.GetProcNames) (oldP, sv.procList) n hkeep
    have hreg := register_fold_preserve sv opt.appName
      (Registry.CreateProject opt).name opt.processes
      ((Registry.remFold sv.procList (Registry.CreateProject opt)
          oldP).1,
        (Registry.remFold sv.procList (Registry.CreateProject opt)
          oldP).2, []) n
    constructor
    · intro hsome
      apply hreg.2.1
      show ((Registry.remFold sv.procList (Registry.CreateProject opt)
        oldP).1.procTable.lookup n).isSome
      unfold Registry.remFold
      rw [hrem.2.1]
      exact hsome
    · intro hsome
      apply hreg.2.2
      show ((Registry.remFold sv.procList (Registry.CreateProject opt)
        oldP).2.place.lookup (opt.appName ++ "::" ++ n)).isSome
      unfold Registry.remFold
      have h4 := hrem.2.2.2
      rw [show ((oldP, sv.procList) :
          Registry.Project × Registry.ProcList).1.name = opt.appName
        from hname] at h4
      rw [h4]
      exact hsome
  refine ⟨?_, ?_, ?_⟩
  · intro hsome hnone
    by_cases hdecl : (opt.processes.lookup n).isSome
    · exfalso
      have hre := (main (Or.inl hdecl)).1 hsome
      rw [← hfinal] at hre
      rw [hnone] at hre
      cases hre
    · by_cases hflag : oldP.GetState n = true
      · exfalso
        have hre := (main (Or.inr hflag)).1 hsome
        rw [← hfinal] at hre
        rw [hnone] at hre
        cases hre
      · constructor
        · cases hx : opt.processes.lookup n with
          | none => rfl
          | some x =>
            rw [hx] at hdecl
            exact absurd rfl hdecl
        · exact Bool.eq_false_iff.mpr hflag
  · intro hsome hnone
    by_cases hdecl : (opt.processes.lookup n).isSome
    · exfalso
      have hre := (main (Or.inl hdecl)).2 hsome
      rw [← hpl] at hre
      rw [hnone] at hre
      cases hre
    · by_cases hflag : oldP.GetState n = true
      · exfalso
        have hre := (main (Or.inr hflag)).2 hsome
        rw [← hpl] at hre
        rw [hnone] at hre
        cases hre
      · constructor
        · cases hx : opt.processes.lookup n with
          | none => rfl
          | some x =>
            rw [hx] at hdecl
            exact absurd rfl hdecl
        · exact Bool.eq_false_iff.mpr hflag
  · intro hflag
    constructor
    · intro hsome
      rw [hfinal]
      exact (main (Or.inr hflag)).1 hsome
    · intro hsome
      rw [hpl]
      exact (main (Or.inr hflag)).2 hsome

/-- C3 witness: in the concrete registry, process `a` is flagged
running and undeclared in the new option, yet `UpdateApp(false)`
retains it in both the project's table and the global `ProcList`. -/
theorem updateApp_never_removes_running_witness :
    (((Registry.UpdateApp Fixtures.svW false
        Fixtures.optW).2.1.getD Fixtures.oldProjW).procTable.lookup
      "a").isSome ∧
    (((Registry.UpdateApp Fixtures.svW false
        Fixtures.optW).1.procList.place.lookup
      ("app" ++ "::" ++ "a")).isSome) := by
  have hfin : (Registry.UpdateApp Fixtures.svW false
      Fixtures.optW).2.1 = some ((Registry.UpdateApp Fixtures.svW false
        Fixtures.optW).2.1.getD Fixtures.oldProjW) := by decide
  refine ⟨((updateApp_never_removes_running Fixtures.svW Fixtures.optW
      Fixtures.oldProjW "a" _ (by decide) (by decide) hfin).2.2
        (by decide)).1 (by decide),
    ((updateApp_never_removes_running Fixtures.svW Fixtures.optW
      Fixtures.oldProjW "a" _ (by decide) (by decide) hfin).2.2
        (by decide)).2 (by decide)⟩

end Spm
